import Mathlib

/-!
Verification development for the image-thumbnail service.

The embedding follows the repository sources:
  app/routers/thumbnail_service.py  (generate_thumbnail)
  app/routers/uploads.py            (validate_image, upload_image,
                                     create_thumbnail_background,
                                     get_thumbnail_status, delete_image)
  app/models.py                     (Image, Thumbnail records)

Pure functions are embedded as Lean functions; the database, file
storage, and the background-task queue are explicit state threaded
through the operations; exceptions are embedded as Except / Option
results.
-/

namespace ImageThumb

/-! ### Resampler: app/routers/thumbnail_service.py -/

/-- Image color models relevant to the service.  The source checks
membership of img.mode in the tuple (RGBA, LA, P); the remaining
constructors are the common opaque modes a decoder returns. -/
inductive PILMode
| one
| L
| LA
| P
| RGB
| RGBA
| CMYK
deriving DecidableEq, Repr

/-- An abstract decoded source image: color mode plus pixel dimensions. -/
structure SrcImage where
  mode : PILMode
  width : Nat
  height : Nat
deriving DecidableEq, Repr

/-- Round p / q to the nearest integer, rounding half down.  This is
the rounding the bounding-box fit performs on the scaled dimension. -/
def roundHalfDown (p q : Nat) : Nat :=
  p / q + (if q < 2 * (p % q) then 1 else 0)

/-- Modelled from the spec: the library resize call
img.thumbnail((width, height), LANCZOS) is external library code, not
part of this repository.  Per the spec it resizes so the result fits
within the target bounding box while preserving aspect ratio, scale
factor min(targetWidth/sourceWidth, targetHeight/sourceHeight) capped
at 1.0 (never enlarging): if the source fits inside the box it is left
unchanged; otherwise the binding target dimension is hit exactly and
the other dimension is the aspect-correct value rounded to an integer
(clamped to at least 1 pixel).  Arguments: source width, source
height, target width, target height; result: actual output size. -/
def thumbnailSize (sw sh tw th : Nat) : Nat × Nat :=
  if sw ≤ tw ∧ sh ≤ th then (sw, sh)
  else if th * sw ≤ tw * sh then
    (max 1 (roundHalfDown (th * sw) sh), th)
  else
    (tw, max 1 (roundHalfDown (tw * sh) sw))

/-- Does the color mode carry an alpha channel or palette indexing?
From the membership test img.mode in (RGBA, LA, P). -/
def hasAlphaOrPalette : PILMode → Bool
| .RGBA => true
| .LA => true
| .P => true
| _ => false

/-- Modelled from the spec: the JPEG encoder (img.save with format
JPEG) is external library code; the output format has no alpha
support, so encoding succeeds exactly for opaque, non-palette color
models. -/
def jpegEncodable : PILMode → Bool
| .one => true
| .L => true
| .RGB => true
| .CMYK => true
| _ => false

/-- Failure of a worker step: missing or undecodable source, or a
failing encode or write. -/
inductive GenError
| decodeError
| writeError
deriving DecidableEq, Repr

/-- The produced thumbnail: color mode of the encoding plus the actual
output dimensions. -/
structure ThumbOutput where
  mode : PILMode
  width : Nat
  height : Nat
deriving DecidableEq, Repr

/-- generate_thumbnail from app/routers/thumbnail_service.py.  The
source argument is the decode outcome of the bytes at source_path
(none: the open call raises, e.g. file missing or corrupt input).
Converts RGBA, LA and P modes to RGB, resizes within the bounding box,
and saves as JPEG; any raised error becomes an Except error. -/
def generate_thumbnail (src : Option SrcImage) (width height : Nat) :
    Except GenError ThumbOutput :=
  match src with
  | none => .error .decodeError
  | some img =>
    let mode := if hasAlphaOrPalette img.mode then PILMode.RGB else img.mode
    let sz := thumbnailSize img.width img.height width height
    if jpegEncodable mode then
      .ok ⟨mode, sz.1, sz.2⟩
    else
      .error .writeError

/-! ### Upload ingestion and job lifecycle: app/routers/uploads.py -/

/-- MAX_FILE_SIZE_MB from uploads.py. -/
def MAX_FILE_SIZE_MB : Nat := 10

/-- ALLOWED_TYPES from uploads.py (a fixed set of MIME types). -/
def ALLOWED_TYPES : List String :=
  ["image/jpeg", "image/png", "image/gif", "image/webp",
   "image/svg+xml", "image/heic", "image/heif", "image/avif"]

/-- An HTTPException raised by a handler: status code plus detail. -/
structure HTTPError where
  statusCode : Nat
  detail : String
deriving DecidableEq, Repr

/-- Structural embedding of String.startsWith (the builtin is defined
by well-founded recursion over byte positions, which blocks kernel
evaluation): p is a prefix of s. -/
def strStartsWith (s p : String) : Bool :=
  p.data.isPrefixOf s.data

/-- The error raised by the initial content-type guard in upload_image. -/
def errMustBeImage : HTTPError := ⟨400, "File must be an image"⟩

/-- The error raised by the allow-list check in validate_image.  The
source interpolates the allow-list into the detail text; the exact
text does not matter, only that it is the unsupported-type error. -/
def errInvalidType : HTTPError := ⟨400, "Invalid file type"⟩

/-- The error raised by the size check in validate_image. -/
def errTooLarge : HTTPError := ⟨400, "File exceeds 10MB limit"⟩

/-- validate_image from uploads.py: checks the declared content type
against ALLOWED_TYPES, then the byte length against the 10 MiB limit;
returns the HTTPException it would raise, if any. -/
def validate_image (content_type : String) (contentLen : Nat) :
    Option HTTPError :=
  if content_type ∈ ALLOWED_TYPES then
    if contentLen > MAX_FILE_SIZE_MB * 1024 * 1024 then some errTooLarge
    else none
  else
    some errInvalidType

/-- A row of the images table (app/models.py, class Image). -/
structure ImageRec where
  id : Nat
  filename : String
  content_type : String
  size : Nat
  path : String
  owner_id : Nat
deriving DecidableEq, Repr

/-- A row of the thumbnails table (app/models.py, class Thumbnail).
width and height are declared nullable=False in the model, hence plain
Nat here; path is nullable=True, hence Option. -/
structure ThumbnailRec where
  id : Nat
  image_id : Nat
  width : Nat
  height : Nat
  path : Option String
  status : String
deriving DecidableEq, Repr

/-- The database: the two tables the pipeline touches. -/
structure DB where
  images : List ImageRec
  thumbnails : List ThumbnailRec
deriving DecidableEq, Repr

/-- The arguments upload_image passes to background_tasks.add_task for
create_thumbnail_background (durable identifiers only). -/
structure TaskArgs where
  image_id : Nat
  image_path : String
  thumbnail_id : Nat
  width : Nat
  height : Nat
deriving DecidableEq, Repr

/-- System state: database, the set of file paths written to disk, the
FIFO queue of scheduled background tasks, and a counter modelling
uuid4 generation of fresh record ids. -/
structure Sys where
  db : DB
  files : List String
  tasks : List TaskArgs
  nextId : Nat
deriving DecidableEq, Repr

/-- db.query(models.Thumbnail).filter(id == tid).first() -/
def findThumbnail (db : DB) (tid : Nat) : Option ThumbnailRec :=
  db.thumbnails.find? (fun t => t.id == tid)

/-- db.query(models.Image).filter(id == iid).first() -/
def findImage (db : DB) (iid : Nat) : Option ImageRec :=
  db.images.find? (fun i => i.id == iid)

/-- Commit a mutation of the thumbnail row with the given id. -/
def updateThumbnail (db : DB) (tid : Nat)
    (f : ThumbnailRec → ThumbnailRec) : DB :=
  { db with thumbnails :=
      db.thumbnails.map (fun t => if t.id == tid then f t else t) }

/-- The thumbnails directory constant from uploads.py. -/
def THUMBNAIL_DIR : String := "uploads/thumbnails"

/-- The uploads directory constant from uploads.py. -/
def UPLOAD_DIR : String := "uploads"

/-- The output filename computed in create_thumbnail_background:
image_id, the literal _thumb_, then width x height and .jpg. -/
def thumbFilename (image_id width height : Nat) : String :=
  toString image_id ++ "_thumb_" ++ toString width ++ "x" ++
    toString height ++ ".jpg"

/-- create_thumbnail_background from uploads.py.  The gen argument is
the outcome of the generate_thumbnail call (success with the actual
dimensions, or any raised exception).  On success the output file is
written and the job is marked ready with path and actual dimensions in
one commit; on any exception the job is marked failed; either update
is skipped when the row no longer exists.  The function is total: no
exception escapes to a caller. -/
def create_thumbnail_background (s : Sys) (image_id : Nat)
    (thumbnail_id : Nat) (width height : Nat)
    (gen : Except GenError ThumbOutput) : Sys :=
  let thumbnail_path :=
    THUMBNAIL_DIR ++ "/" ++ thumbFilename image_id width height
  match gen with
  | .ok out =>
    let s1 := { s with files := thumbnail_path :: s.files }
    match findThumbnail s1.db thumbnail_id with
    | some _ =>
      { s1 with db := updateThumbnail s1.db thumbnail_id (fun t =>
          { t with status := "ready", path := some thumbnail_path,
                   width := out.width, height := out.height }) }
    | none => s1
  | .error _ =>
    match findThumbnail s.db thumbnail_id with
    | some _ =>
      { s with db := updateThumbnail s.db thumbnail_id (fun t =>
          { t with status := "failed" }) }
    | none => s

/-- An incoming multipart upload: declared filename, declared content
type, and the byte length of the content (the bytes themselves are
abstract; their decode outcome is supplied when the worker runs). -/
structure UploadRequest where
  filename : String
  content_type : String
  size : Nat
deriving DecidableEq, Repr

/-- The response body of POST /api/images/upload
(schemas.ImageUploadResult). -/
structure UploadResponse where
  image_id : Nat
  thumbnail_id : Nat
  thumbnail_status : String
deriving DecidableEq, Repr

/-- generate_filename from uploads.py: a collision-resistant uuid4 hex
token with the original extension.  The uuid is modelled by the fresh
counter; the extension handling is irrelevant to the claims. -/
def generate_filename (fresh : Nat) : String :=
  "tok" ++ toString fresh

/-- upload_image from uploads.py: content-type guard, read, validate,
save to disk, create the Image record, create the pending Thumbnail
record with the fixed 500 by 500 target box, schedule the background
task, and return the ids with literal status pending.  A raised
HTTPException leaves the state untouched (every side effect comes
after both checks). -/
def upload_image (s : Sys) (req : UploadRequest) (ownerId : Nat) :
    Sys × Except HTTPError UploadResponse :=
  if ¬ strStartsWith req.content_type "image/" then
    (s, .error errMustBeImage)
  else
    match validate_image req.content_type req.size with
    | some e => (s, .error e)
    | none =>
      let filename := generate_filename s.nextId
      let filepath := UPLOAD_DIR ++ "/" ++ filename
      let image_id := s.nextId
      let image : ImageRec :=
        ⟨image_id, filename, req.content_type, req.size, filepath, ownerId⟩
      let thumbnail_width := 500
      let thumbnail_height := 500
      let thumbnail_id := s.nextId + 1
      let th : ThumbnailRec :=
        ⟨thumbnail_id, image_id, thumbnail_width, thumbnail_height,
         none, "pending"⟩
      let task : TaskArgs :=
        ⟨image_id, filepath, thumbnail_id, thumbnail_width, thumbnail_height⟩
      ({ db := { images := image :: s.db.images,
                 thumbnails := th :: s.db.thumbnails },
         files := filepath :: s.files,
         tasks := s.tasks ++ [task],
         nextId := s.nextId + 2 },
       .ok ⟨image_id, thumbnail_id, "pending"⟩)

/-- The response body of GET /api/images/thumbnails/(id). -/
structure ThumbnailStatusResponse where
  id : Nat
  image_id : Nat
  status : String
  width : Nat
  height : Nat
  path : Option String
deriving DecidableEq, Repr

/-- get_thumbnail_status from uploads.py: 404 when the id does not
resolve, 403 when the requester does not own the parent image,
otherwise the current snapshot regardless of status.  A missing parent
image cannot occur (deletion cascades); it is embedded as a 500. -/
def get_thumbnail_status (s : Sys) (thumbnail_id : Nat) (userId : Nat) :
    Except HTTPError ThumbnailStatusResponse :=
  match findThumbnail s.db thumbnail_id with
  | none => .error ⟨404, "Thumbnail not found"⟩
  | some t =>
    match findImage s.db t.image_id with
    | none => .error ⟨500, "Internal Server Error"⟩
    | some img =>
      if img.owner_id ≠ userId then
        .error ⟨403, "Not authorized to access this thumbnail"⟩
      else
        .ok ⟨t.id, t.image_id, t.status, t.width, t.height, t.path⟩

/-- delete_image from uploads.py: deletes the image row after the
existence and ownership checks; the thumbnails rows follow by the
ON DELETE CASCADE foreign key in app/models.py. -/
def delete_image (s : Sys) (iid : Nat) (userId : Nat) : Sys :=
  match findImage s.db iid with
  | none => s
  | some img =>
    if img.owner_id ≠ userId then s
    else
      { s with db :=
          { images := s.db.images.filter (fun i => ¬ i.id == iid),
            thumbnails :=
              s.db.thumbnails.filter (fun t => ¬ t.image_id == iid) } }

/-! ### Executions of the system -/

/-- One externally triggered step of the system.  runTask executes the
oldest scheduled background task; its argument is the decode outcome
of the bytes at the source path (the environment).  query is the
read-only status lookup; deleteImage the image deletion endpoint. -/
inductive Event
| upload (req : UploadRequest) (ownerId : Nat)
| runTask (src : Option SrcImage)
| query (tid : Nat) (userId : Nat)
| deleteImage (iid : Nat) (userId : Nat)

/-- Apply one event to the state. -/
def applyEvent (s : Sys) (e : Event) : Sys :=
  match e with
  | .upload req owner => (upload_image s req owner).1
  | .runTask src =>
    match s.tasks with
    | [] => s
    | task :: rest =>
      create_thumbnail_background { s with tasks := rest }
        task.image_id task.thumbnail_id task.width task.height
        (generate_thumbnail src task.width task.height)
  | .query _ _ => s
  | .deleteImage iid uid => delete_image s iid uid

/-- The empty initial state. -/
def initSys : Sys := ⟨⟨[], []⟩, [], [], 0⟩

/-- Run an execution from the initial state. -/
def run (es : List Event) : Sys := es.foldl applyEvent initSys

/-- The status of a job as persisted, if the job exists. -/
def statusOf (s : Sys) (tid : Nat) : Option String :=
  (findThumbnail s.db tid).map (fun t => t.status)

/-- Upload followed by the detached generation run: the response is
produced by upload_image before the background task executes. -/
def uploadThenGenerate (s : Sys) (req : UploadRequest) (ownerId : Nat)
    (src : Option SrcImage) : Sys × Except HTTPError UploadResponse :=
  let r := upload_image s req ownerId
  (applyEvent r.1 (.runTask src), r.2)

/-! ### Invariants of reachable states -/

/-- Per-row invariant of a thumbnail record: the status is one of the
three lifecycle values; the output path is populated exactly when the
status is ready; and while the job is not ready its width and height
still hold the requested 500 by 500 target box (they are overwritten
with the actual dimensions only on the ready transition). -/
def ThumbInvariant (t : ThumbnailRec) : Prop :=
  (t.status = "pending" ∨ t.status = "ready" ∨ t.status = "failed") ∧
  ((t.path ≠ none) ↔ t.status = "ready") ∧
  (t.status ≠ "ready" → t.width = 500 ∧ t.height = 500 ∧ t.path = none)

/-- Global invariant of reachable system states: every thumbnail row
satisfies the per-row invariant, record ids are below the freshness
counter and pairwise distinct, scheduled tasks reference distinct ids
below the counter, and a job that still has a scheduled task is still
pending. -/
def SysInvariant (s : Sys) : Prop :=
  (∀ t ∈ s.db.thumbnails, ThumbInvariant t) ∧
  (∀ t ∈ s.db.thumbnails, t.id < s.nextId) ∧
  s.db.thumbnails.Pairwise (fun a b => a.id ≠ b.id) ∧
  (∀ a ∈ s.tasks, a.thumbnail_id < s.nextId) ∧
  s.tasks.Pairwise (fun a b => a.thumbnail_id ≠ b.thumbnail_id) ∧
  (∀ a ∈ s.tasks, ∀ t ∈ s.db.thumbnails,
    t.id = a.thumbnail_id → t.status = "pending")

/-! ### Concrete fixtures for witnesses and counterexamples -/

/-- A valid PNG upload request (allowed type, small size). -/
def reqPng : UploadRequest := ⟨"a.png", "image/png", 100⟩

/-- A decodable opaque 2000 by 1000 source image. -/
def imgWide : SrcImage := ⟨PILMode.RGB, 2000, 1000⟩

/-- The state reached by one successful upload of reqPng. -/
def sysAfterUpload : Sys := run [Event.upload reqPng 0]

/-- The pending job row created by that upload (image id 0, job id 1,
requested box 500 by 500 stored in width and height). -/
def thumbPending : ThumbnailRec := ⟨1, 0, 500, 500, none, "pending"⟩

/-! ### Arithmetic lemmas about the rounded bounding-box fit -/

/-- The rounded scaled dimension never exceeds an integer bound on the
exact ratio: if p ≤ B * q then round(p / q) ≤ B. -/
theorem roundHalfDown_le (p q B : Nat) (hq : 0 < q) (h : p ≤ B * q) :
    roundHalfDown p q ≤ B := by
  unfold roundHalfDown
  have hdm : q * (p / q) + p % q = p := Nat.div_add_mod p q
  have hr : p % q < q := Nat.mod_lt p hq
  split_ifs with h2
  · have hrpos : 0 < p % q := by omega
    have hlt : q * (p / q) < q * B := by
      calc q * (p / q) < q * (p / q) + p % q := Nat.lt_add_of_pos_right hrpos
        _ = p := hdm
        _ ≤ B * q := h
        _ = q * B := Nat.mul_comm B q
    have := Nat.lt_of_mul_lt_mul_left hlt
    omega
  · have hle : q * (p / q) ≤ q * B := by
      calc q * (p / q) ≤ q * (p / q) + p % q := Nat.le_add_right _ _
        _ = p := hdm
        _ ≤ B * q := h
        _ = q * B := Nat.mul_comm B q
    have := Nat.le_of_mul_le_mul_left hle hq
    omega

/-- The rounded, 1-clamped scaled dimension differs from the exact
scaled value p / q by less than one pixel: its product with q lies
within q of p. -/
theorem roundHalfDown_aspect (p q : Nat) (hq : 0 < q) :
    max 1 (roundHalfDown p q) * q ≤ p + q ∧
      p ≤ max 1 (roundHalfDown p q) * q + q := by
  unfold roundHalfDown
  have hdm : q * (p / q) + p % q = p := Nat.div_add_mod p q
  have hr : p % q < q := Nat.mod_lt p hq
  split_ifs with h2
  · have hmax : max 1 (p / q + 1) = p / q + 1 :=
      Nat.max_eq_right (Nat.succ_le_succ (Nat.zero_le _))
    rw [hmax, Nat.add_mul, Nat.one_mul, Nat.mul_comm (p / q) q]
    constructor
    · linarith
    · linarith
  · rw [Nat.add_zero]
    rcases Nat.eq_zero_or_pos (p / q) with h0 | h0
    · rw [h0]
      have hmax : max 1 0 = 1 := rfl
      rw [hmax, Nat.one_mul]
      have hp0 : q * 0 + p % q = p := by rw [← h0]; exact hdm
      constructor
      · linarith
      · linarith
    · have hmax : max 1 (p / q) = p / q := Nat.max_eq_right h0
      rw [hmax]
      constructor
      · exact Nat.le_trans (Nat.div_mul_le_self p q) (Nat.le_add_right p q)
      · calc p = q * (p / q) + p % q := hdm.symm
          _ ≤ q * (p / q) + q := Nat.add_le_add_left (Nat.le_of_lt hr) _
          _ = p / q * q + q := by rw [Nat.mul_comm]

/-- **C3.** Bounding-box resize: for positive source dimensions
(sw, sh) and positive target box (tw, th), the resize result fits
within the tw by th box, preserves the source aspect ratio within
rounding (the cross products of the result and source dimensions agree
within max sw sh, i.e. within one output pixel of the exact scale
min(tw/sw, th/sh)), and whenever the source does not already fit in
the box one output dimension hits the box exactly; in particular a
2000 by 1000 source with target 500 by 500 yields 500 by 250. -/
theorem thumbnail_fits_bounding_box (sw sh tw th : Nat)
    (hsw : 0 < sw) (hsh : 0 < sh) (htw : 0 < tw) (hth : 0 < th) :
    (thumbnailSize sw sh tw th).1 ≤ tw ∧
    (thumbnailSize sw sh tw th).2 ≤ th ∧
    (thumbnailSize sw sh tw th).1 * sh ≤
      (thumbnailSize sw sh tw th).2 * sw + max sw sh ∧
    (thumbnailSize sw sh tw th).2 * sw ≤
      (thumbnailSize sw sh tw th).1 * sh + max sw sh ∧
    (¬ (sw ≤ tw ∧ sh ≤ th) →
      (thumbnailSize sw sh tw th).1 = tw ∨
        (thumbnailSize sw sh tw th).2 = th) ∧
    thumbnailSize 2000 1000 500 500 = (500, 250) := by
  have hconc : thumbnailSize 2000 1000 500 500 = (500, 250) := by decide
  have hshm : sh ≤ max sw sh := Nat.le_max_right sw sh
  have hswm : sw ≤ max sw sh := Nat.le_max_left sw sh
  have hmain : (thumbnailSize sw sh tw th).1 ≤ tw ∧
      (thumbnailSize sw sh tw th).2 ≤ th ∧
      (thumbnailSize sw sh tw th).1 * sh ≤
        (thumbnailSize sw sh tw th).2 * sw + max sw sh ∧
      (thumbnailSize sw sh tw th).2 * sw ≤
        (thumbnailSize sw sh tw th).1 * sh + max sw sh ∧
      (¬ (sw ≤ tw ∧ sh ≤ th) →
        (thumbnailSize sw sh tw th).1 = tw ∨
          (thumbnailSize sw sh tw th).2 = th) := by
    unfold thumbnailSize
    split_ifs with h1 h2
    · refine ⟨h1.1, h1.2, ?_, ?_, fun hc => absurd h1 hc⟩
      · show sw * sh ≤ sh * sw + max sw sh
        rw [Nat.mul_comm sw sh]
        exact Nat.le_add_right _ _
      · show sh * sw ≤ sw * sh + max sw sh
        rw [Nat.mul_comm sh sw]
        exact Nat.le_add_right _ _
    · have hfit := roundHalfDown_le (th * sw) sh tw hsh h2
      have hasp := roundHalfDown_aspect (th * sw) sh hsh
      refine ⟨?_, Nat.le_refl th, ?_, ?_, fun _ => Or.inr rfl⟩
      · exact max_le htw hfit
      · show max 1 (roundHalfDown (th * sw) sh) * sh ≤ th * sw + max sw sh
        linarith [hasp.1]
      · show th * sw ≤ max 1 (roundHalfDown (th * sw) sh) * sh + max sw sh
        linarith [hasp.2]
    · have hle : tw * sh ≤ th * sw := Nat.le_of_not_le h2
      have hfit := roundHalfDown_le (tw * sh) sw th hsw hle
      have hasp := roundHalfDown_aspect (tw * sh) sw hsw
      refine ⟨Nat.le_refl tw, ?_, ?_, ?_, fun _ => Or.inl rfl⟩
      · exact max_le hth hfit
      · show tw * sh ≤ max 1 (roundHalfDown (tw * sh) sw) * sw + max sw sh
        linarith [hasp.2]
      · show max 1 (roundHalfDown (tw * sh) sw) * sw ≤ tw * sh + max sw sh
        linarith [hasp.1]
  exact ⟨hmain.1, hmain.2.1, hmain.2.2.1, hmain.2.2.2.1, hmain.2.2.2.2, hconc⟩

/-- Witness for C3 at the 2000 by 1000 source with 500 by 500 box. -/
theorem thumbnail_fits_bounding_box_witness :
    (thumbnailSize 2000 1000 500 500).1 ≤ 500 ∧
    (thumbnailSize 2000 1000 500 500).2 ≤ 500 ∧
    (thumbnailSize 2000 1000 500 500).1 * 1000 ≤
      (thumbnailSize 2000 1000 500 500).2 * 2000 + max 2000 1000 ∧
    (thumbnailSize 2000 1000 500 500).2 * 2000 ≤
      (thumbnailSize 2000 1000 500 500).1 * 1000 + max 2000 1000 ∧
    (¬ (2000 ≤ 500 ∧ 1000 ≤ 500) →
      (thumbnailSize 2000 1000 500 500).1 = 500 ∨
        (thumbnailSize 2000 1000 500 500).2 = 500) ∧
    thumbnailSize 2000 1000 500 500 = (500, 250) :=
  thumbnail_fits_bounding_box 2000 1000 500 500 (by decide) (by decide)
    (by decide) (by decide)

/-- **C4.** No upscaling: a source strictly smaller than the target
box in both dimensions is returned unchanged in size. -/
theorem thumbnail_no_upscaling (sw sh tw th : Nat)
    (h1 : sw < tw) (h2 : sh < th) :
    thumbnailSize sw sh tw th = (sw, sh) := by
  unfold thumbnailSize
  rw [if_pos ⟨Nat.le_of_lt h1, Nat.le_of_lt h2⟩]

/-- Witness for C4 at a 400 by 300 source with 500 by 500 box. -/
theorem thumbnail_no_upscaling_witness :
    thumbnailSize 400 300 500 500 = (400, 300) :=
  thumbnail_no_upscaling 400 300 500 500 (by decide) (by decide)

/-- **C8.** Alpha and palette normalization: a decodable source whose
color mode carries an alpha channel or palette indexing is converted
to the opaque RGB model, the resize and encode succeed (no error), and
the actual dimensions are the bounding-box fit; in particular a
400 by 300 RGBA source with target 500 by 500 yields an opaque RGB
encoding of size 400 by 300. -/
theorem thumbnail_alpha_normalized (img : SrcImage) (w h : Nat)
    (ha : hasAlphaOrPalette img.mode = true) :
    generate_thumbnail (some img) w h =
      .ok ⟨PILMode.RGB, (thumbnailSize img.width img.height w h).1,
           (thumbnailSize img.width img.height w h).2⟩ ∧
    hasAlphaOrPalette PILMode.RGB = false ∧
    generate_thumbnail (some ⟨PILMode.RGBA, 400, 300⟩) 500 500 =
      .ok ⟨PILMode.RGB, 400, 300⟩ := by
  refine ⟨?_, rfl, rfl⟩
  simp only [generate_thumbnail, ha, if_true, jpegEncodable]

/-- Witness for C8 at a 400 by 300 RGBA source with 500 by 500 box. -/
theorem thumbnail_alpha_normalized_witness :
    generate_thumbnail (some ⟨PILMode.RGBA, 400, 300⟩) 500 500 =
      .ok ⟨PILMode.RGB, (thumbnailSize 400 300 500 500).1,
           (thumbnailSize 400 300 500 500).2⟩ ∧
    hasAlphaOrPalette PILMode.RGB = false ∧
    generate_thumbnail (some ⟨PILMode.RGBA, 400, 300⟩) 500 500 =
      .ok ⟨PILMode.RGB, 400, 300⟩ :=
  thumbnail_alpha_normalized ⟨PILMode.RGBA, 400, 300⟩ 500 500 rfl

/-! ### Lemmas about lookups under updates -/

/-- find? by id on a cons whose head has the id. -/
theorem findT_cons_pos {a : ThumbnailRec} (l : List ThumbnailRec) {x : Nat}
    (h : a.id = x) :
    List.find? (fun u : ThumbnailRec => u.id == x) (a :: l) = some a :=
  List.find?_cons_of_pos l (by simp [h])

/-- find? by id on a cons whose head has a different id. -/
theorem findT_cons_neg {a : ThumbnailRec} (l : List ThumbnailRec) {x : Nat}
    (h : ¬ a.id = x) :
    List.find? (fun u : ThumbnailRec => u.id == x) (a :: l) =
      List.find? (fun u : ThumbnailRec => u.id == x) l :=
  List.find?_cons_of_neg l (by simp [h])

/-- Looking up the updated id after an id-preserving conditional map
returns the updated row. -/
theorem find?_update_self (l : List ThumbnailRec) (tid : Nat)
    (f : ThumbnailRec → ThumbnailRec) (hf : ∀ t, (f t).id = t.id) :
    (l.map (fun t => if t.id == tid then f t else t)).find?
        (fun t => t.id == tid) =
      (l.find? (fun t => t.id == tid)).map f := by
  induction l with
  | nil => rfl
  | cons a l ih =>
    rw [List.map_cons]
    by_cases ha : a.id = tid
    · rw [findT_cons_pos _ (by simp [ha, hf]), findT_cons_pos _ ha]
      simp [ha]
    · rw [findT_cons_neg _ (by simp [ha]), findT_cons_neg _ ha]
      exact ih

/-- Looking up any other id after an id-preserving conditional map is
unchanged. -/
theorem find?_update_other (l : List ThumbnailRec) (tid tid2 : Nat)
    (hne : tid2 ≠ tid)
    (f : ThumbnailRec → ThumbnailRec) (hf : ∀ t, (f t).id = t.id) :
    (l.map (fun t => if t.id == tid then f t else t)).find?
        (fun t => t.id == tid2) =
      l.find? (fun t => t.id == tid2) := by
  induction l with
  | nil => rfl
  | cons a l ih =>
    rw [List.map_cons]
    by_cases ha2 : a.id = tid2
    · have ha : ¬ a.id = tid := fun hc => hne (ha2.symm.trans hc)
      have hcondp : (if (a.id == tid) = true then f a else a).id = tid2 := by
        rw [if_neg (by simp [ha])]
        exact ha2
      rw [findT_cons_pos _ hcondp, findT_cons_pos _ ha2]
      simp [ha]
    · have hcond : ¬ (if (a.id == tid) = true then f a else a).id = tid2 := by
        by_cases ha : a.id = tid
        · simp [ha, hf]
          exact Ne.symm hne
        · simpa [ha] using ha2
      rw [findT_cons_neg _ hcond, findT_cons_neg _ ha2]
      exact ih

/-- In a list with pairwise distinct ids, a row found by id after a
filter was already the row found by that id before the filter. -/
theorem find?_filter_eq (l : List ThumbnailRec) (x : Nat)
    (hp : l.Pairwise (fun a b => a.id ≠ b.id)) (q : ThumbnailRec → Bool)
    (t : ThumbnailRec)
    (h : (l.filter q).find? (fun u => u.id == x) = some t) :
    l.find? (fun u => u.id == x) = some t := by
  induction l with
  | nil => simp at h
  | cons a l ih =>
    rw [List.pairwise_cons] at hp
    by_cases hq : q a = true
    · rw [List.filter_cons_of_pos hq] at h
      by_cases hid : a.id = x
      · rw [findT_cons_pos _ hid] at h
        rw [findT_cons_pos _ hid]
        exact h
      · rw [findT_cons_neg _ hid] at h
        rw [findT_cons_neg _ hid]
        exact ih hp.2 h
    · rw [List.filter_cons_of_neg hq] at h
      by_cases hid : a.id = x
      · have ht : t ∈ l.filter q := List.mem_of_find?_eq_some h
        have htl : t ∈ l := List.mem_of_mem_filter ht
        have htx : t.id = x := by simpa using List.find?_some h
        exact absurd (hid.trans htx.symm) (hp.1 t htl)
      · rw [findT_cons_neg _ hid]
        exact ih hp.2 h

/-! ### Invariant preservation -/

/-- A freshly created pending row satisfies the per-row invariant. -/
theorem thumbInvariant_pending (tid iid : Nat) :
    ThumbInvariant ⟨tid, iid, 500, 500, none, "pending"⟩ := by
  refine ⟨Or.inl rfl, ?_, fun _ => ⟨rfl, rfl, rfl⟩⟩
  constructor
  · intro hc
    exact absurd rfl hc
  · intro hc
    have hne : ("pending" : String) ≠ "ready" := by decide
    exact absurd hc hne

/-- The ready update of any row satisfies the per-row invariant. -/
theorem thumbInvariant_ready (t : ThumbnailRec) (p : String) (w h : Nat) :
    ThumbInvariant
      { t with status := "ready", path := some p, width := w, height := h } := by
  refine ⟨Or.inr (Or.inl rfl), ?_, fun hc => absurd rfl hc⟩
  constructor
  · intro _
    rfl
  · intro _
    exact Option.some_ne_none p

/-- The failed update of a pending row satisfies the per-row invariant. -/
theorem thumbInvariant_failed (t : ThumbnailRec) (ht : ThumbInvariant t)
    (hp : t.status = "pending") :
    ThumbInvariant { t with status := "failed" } := by
  have hne : t.status ≠ "ready" := by
    rw [hp]
    decide
  obtain ⟨hw, hh, hpth⟩ := ht.2.2 hne
  refine ⟨Or.inr (Or.inr rfl), ?_, fun _ => ⟨hw, hh, hpth⟩⟩
  constructor
  · intro hc
    have hpth2 : ({ t with status := "failed" } : ThumbnailRec).path = none :=
      hpth
    exact absurd hpth2 hc
  · intro hc
    have hne2 : ("failed" : String) ≠ "ready" := by decide
    exact absurd hc hne2

/-- The empty initial state satisfies the global invariant. -/
theorem sysInvariant_initSys : SysInvariant initSys := by
  refine ⟨?_, ?_, ?_, ?_, ?_, ?_⟩ <;> simp [initSys, SysInvariant]

/-- Every event preserves the global invariant. -/
theorem sysInvariant_applyEvent (s : Sys) (e : Event) (h : SysInvariant s) :
    SysInvariant (applyEvent s e) := by
  obtain ⟨hTI, hIdB, hIdP, hTB, hTP, hPend⟩ := h
  cases e with
  | query tid uid => exact ⟨hTI, hIdB, hIdP, hTB, hTP, hPend⟩
  | upload req owner =>
    show SysInvariant (upload_image s req owner).1
    unfold upload_image
    split_ifs with hsw
    · split
      · exact ⟨hTI, hIdB, hIdP, hTB, hTP, hPend⟩
      · dsimp only
        refine ⟨?_, ?_, ?_, ?_, ?_, ?_⟩
        · intro t ht
          rcases List.mem_cons.mp ht with rfl | ht
          · exact thumbInvariant_pending _ _
          · exact hTI t ht
        · intro t ht
          rcases List.mem_cons.mp ht with rfl | ht
          · show s.nextId + 1 < s.nextId + 2
            omega
          · have := hIdB t ht
            show t.id < s.nextId + 2
            omega
        · refine List.pairwise_cons.mpr ⟨?_, hIdP⟩
          intro t ht
          have := hIdB t ht
          show s.nextId + 1 ≠ t.id
          omega
        · intro a ha
          rcases List.mem_append.mp ha with ha | ha
          · have := hTB a ha
            show a.thumbnail_id < s.nextId + 2
            omega
          · rcases List.mem_singleton.mp ha with rfl
            show s.nextId + 1 < s.nextId + 2
            omega
        · refine List.pairwise_append.mpr ⟨hTP, List.pairwise_singleton _ _, ?_⟩
          intro a ha b hb
          rcases List.mem_singleton.mp hb with rfl
          have := hTB a ha
          show a.thumbnail_id ≠ s.nextId + 1
          omega
        · intro a ha t ht hid
          rcases List.mem_append.mp ha with ha | ha
          · rcases List.mem_cons.mp ht with rfl | ht
            · have := hTB a ha
              exfalso
              have hid2 : s.nextId + 1 = a.thumbnail_id := hid
              omega
            · exact hPend a ha t ht hid
          · rcases List.mem_singleton.mp ha with rfl
            rcases List.mem_cons.mp ht with rfl | ht
            · rfl
            · have := hIdB t ht
              exfalso
              have hid2 : t.id = s.nextId + 1 := hid
              omega
    · exact ⟨hTI, hIdB, hIdP, hTB, hTP, hPend⟩
  | deleteImage iid uid =>
    show SysInvariant (delete_image s iid uid)
    unfold delete_image
    split
    · exact ⟨hTI, hIdB, hIdP, hTB, hTP, hPend⟩
    · split_ifs with hown
      · exact ⟨hTI, hIdB, hIdP, hTB, hTP, hPend⟩
      · refine ⟨?_, ?_, ?_, hTB, hTP, ?_⟩
        · intro t ht
          exact hTI t (List.mem_of_mem_filter ht)
        · intro t ht
          exact hIdB t (List.mem_of_mem_filter ht)
        · exact hIdP.sublist (List.filter_sublist _)
        · intro a ha t ht hid
          exact hPend a ha t (List.mem_of_mem_filter ht) hid
  | runTask src =>
    show SysInvariant
      (match s.tasks with
       | [] => s
       | task :: rest =>
         create_thumbnail_background { s with tasks := rest }
           task.image_id task.thumbnail_id task.width task.height
           (generate_thumbnail src task.width task.height))
    split
    · exact ⟨hTI, hIdB, hIdP, hTB, hTP, hPend⟩
    · rename_i task rest htasks
      have hTB2 : ∀ a ∈ rest, a.thumbnail_id < s.nextId := by
        intro a ha
        exact hTB a (htasks ▸ List.mem_cons_of_mem task ha)
      have hTP2 := (List.pairwise_cons.mp (htasks ▸ hTP)).2
      have hTaskNe := (List.pairwise_cons.mp (htasks ▸ hTP)).1
      have hPend2 : ∀ a ∈ rest, ∀ t ∈ s.db.thumbnails,
          t.id = a.thumbnail_id → t.status = "pending" := by
        intro a ha t ht hid
        exact hPend a (htasks ▸ List.mem_cons_of_mem task ha) t ht hid
      have hPendHead : ∀ t ∈ s.db.thumbnails,
          t.id = task.thumbnail_id → t.status = "pending" := by
        intro t ht hid
        exact hPend task (htasks ▸ List.mem_cons_self task rest) t ht hid
      unfold create_thumbnail_background
      dsimp only
      split
      · -- generate_thumbnail succeeded
        rename_i out hgen
        split
        · -- the job row still exists: it is marked ready
          refine ⟨?_, ?_, ?_, hTB2, hTP2, ?_⟩
          · intro t2 ht2
            unfold updateThumbnail at ht2
            rcases List.mem_map.mp ht2 with ⟨t, ht, rfl⟩
            by_cases hx : (t.id == task.thumbnail_id) = true
            · rw [if_pos hx]
              exact thumbInvariant_ready t _ out.width out.height
            · rw [if_neg hx]
              exact hTI t ht
          · intro t2 ht2
            unfold updateThumbnail at ht2
            rcases List.mem_map.mp ht2 with ⟨t, ht, rfl⟩
            by_cases hx : (t.id == task.thumbnail_id) = true
            · rw [if_pos hx]
              exact hIdB t ht
            · rw [if_neg hx]
              exact hIdB t ht
          · unfold updateThumbnail
            refine List.pairwise_map.mpr (hIdP.imp ?_)
            intro a b hab
            by_cases hxa : (a.id == task.thumbnail_id) = true <;>
              by_cases hxb : (b.id == task.thumbnail_id) = true <;>
              simp [hxa, hxb, hab]
          · intro a ha t2 ht2 hid
            unfold updateThumbnail at ht2
            rcases List.mem_map.mp ht2 with ⟨t, ht, rfl⟩
            by_cases hx : (t.id == task.thumbnail_id) = true
            · exfalso
              rw [if_pos hx] at hid
              have h1 : t.id = task.thumbnail_id := by simpa using hx
              exact hTaskNe a ha (h1 ▸ hid)
            · rw [if_neg hx] at hid ⊢
              exact hPend2 a ha t ht hid
        · -- the job row is gone: no record is mutated
          exact ⟨hTI, hIdB, hIdP, hTB2, hTP2, hPend2⟩
      · -- generate_thumbnail raised
        split
        · -- the job row still exists: it is marked failed
          refine ⟨?_, ?_, ?_, hTB2, hTP2, ?_⟩
          · intro t2 ht2
            unfold updateThumbnail at ht2
            rcases List.mem_map.mp ht2 with ⟨t, ht, rfl⟩
            by_cases hx : (t.id == task.thumbnail_id) = true
            · rw [if_pos hx]
              refine thumbInvariant_failed t (hTI t ht) ?_
              exact hPendHead t ht (by simpa using hx)
            · rw [if_neg hx]
              exact hTI t ht
          · intro t2 ht2
            unfold updateThumbnail at ht2
            rcases List.mem_map.mp ht2 with ⟨t, ht, rfl⟩
            by_cases hx : (t.id == task.thumbnail_id) = true
            · rw [if_pos hx]
              exact hIdB t ht
            · rw [if_neg hx]
              exact hIdB t ht
          · unfold updateThumbnail
            refine List.pairwise_map.mpr (hIdP.imp ?_)
            intro a b hab
            by_cases hxa : (a.id == task.thumbnail_id) = true <;>
              by_cases hxb : (b.id == task.thumbnail_id) = true <;>
              simp [hxa, hxb, hab]
          · intro a ha t2 ht2 hid
            unfold updateThumbnail at ht2
            rcases List.mem_map.mp ht2 with ⟨t, ht, rfl⟩
            by_cases hx : (t.id == task.thumbnail_id) = true
            · exfalso
              rw [if_pos hx] at hid
              have h1 : t.id = task.thumbnail_id := by simpa using hx
              exact hTaskNe a ha (h1 ▸ hid)
            · rw [if_neg hx] at hid ⊢
              exact hPend2 a ha t ht hid
        · -- the job row is gone: no record is mutated
          exact ⟨hTI, hIdB, hIdP, hTB2, hTP2, hPend2⟩

/-- Every reachable state satisfies the global invariant. -/
theorem sysInvariant_run (es : List Event) : SysInvariant (run es) := by
  suffices hgen : ∀ s, SysInvariant s → SysInvariant (es.foldl applyEvent s) by
    exact hgen initSys sysInvariant_initSys
  induction es with
  | nil => exact fun s hs => hs
  | cons e es ih =>
    intro s hs
    exact ih (applyEvent s e) (sysInvariant_applyEvent s e hs)

/-- find? by id on a cons of image rows whose head has the id. -/
theorem findI_cons_pos {a : ImageRec} (l : List ImageRec) {x : Nat}
    (h : a.id = x) :
    List.find? (fun u : ImageRec => u.id == x) (a :: l) = some a :=
  List.find?_cons_of_pos l (by simp [h])

/-- Lookup of the updated row through updateThumbnail. -/
theorem findThumbnail_update_self (db : DB) (tid : Nat)
    (f : ThumbnailRec → ThumbnailRec) (hf : ∀ t, (f t).id = t.id) :
    findThumbnail (updateThumbnail db tid f) tid =
      (findThumbnail db tid).map f :=
  find?_update_self db.thumbnails tid f hf

/-- Lookup of any other row through updateThumbnail. -/
theorem findThumbnail_update_other (db : DB) (tid tid2 : Nat)
    (hne : tid2 ≠ tid)
    (f : ThumbnailRec → ThumbnailRec) (hf : ∀ t, (f t).id = t.id) :
    findThumbnail (updateThumbnail db tid f) tid2 = findThumbnail db tid2 :=
  find?_update_other db.thumbnails tid tid2 hne f hf

/-! ### Claims about upload validation -/

/-- **C5.** Rejection before persistence: an upload whose declared
content type is not in the allow-list, or whose byte length exceeds
10 MiB, returns a 400 error and leaves the system state completely
unchanged: no file write, no Image record, no Thumbnail record, no
scheduled task. -/
theorem upload_rejected_without_persistence (s : Sys) (req : UploadRequest)
    (ownerId : Nat)
    (h : req.content_type ∉ ALLOWED_TYPES ∨
      req.size > MAX_FILE_SIZE_MB * 1024 * 1024) :
    ∃ err, upload_image s req ownerId = (s, Except.error err) ∧
      err.statusCode = 400 := by
  unfold upload_image
  split_ifs with hsw
  · unfold validate_image
    split_ifs with hmem hsize
    · exact ⟨errTooLarge, rfl, rfl⟩
    · rcases h with h | h
      · exact absurd hmem h
      · exact absurd h hsize
    · exact ⟨errInvalidType, rfl, rfl⟩
  · exact ⟨errMustBeImage, rfl, rfl⟩

/-- Witness for C5: a text/plain upload is rejected with state
untouched. -/
theorem upload_rejected_without_persistence_witness :
    ∃ err, upload_image initSys ⟨"a.txt", "text/plain", 5⟩ 0 =
      (initSys, Except.error err) ∧ err.statusCode = 400 :=
  upload_rejected_without_persistence initSys ⟨"a.txt", "text/plain", 5⟩ 0
    (Or.inl (by decide))

/-- **C10.** Validation priority: when the declared content type is
not allowed AND the content exceeds 10 MiB, the returned 400 error is
one of the two unsupported-type errors and never the too-large
error. -/
theorem unsupported_type_error_priority (s : Sys) (req : UploadRequest)
    (ownerId : Nat) (ht : req.content_type ∉ ALLOWED_TYPES)
    (hs : req.size > MAX_FILE_SIZE_MB * 1024 * 1024) :
    ∃ err, upload_image s req ownerId = (s, Except.error err) ∧
      err.statusCode = 400 ∧
      (err = errMustBeImage ∨ err = errInvalidType) ∧
      err ≠ errTooLarge := by
  unfold upload_image
  split_ifs with hsw
  · unfold validate_image
    rw [if_neg ht]
    exact ⟨errInvalidType, rfl, rfl, Or.inr rfl, by decide⟩
  · exact ⟨errMustBeImage, rfl, rfl, Or.inl rfl, by decide⟩

/-- Witness for C10: a too-large text/plain upload yields the
unsupported-type error. -/
theorem unsupported_type_error_priority_witness :
    ∃ err, upload_image initSys
        ⟨"a.txt", "text/plain", 10 * 1024 * 1024 + 1⟩ 0 =
      (initSys, Except.error err) ∧
      err.statusCode = 400 ∧
      (err = errMustBeImage ∨ err = errInvalidType) ∧
      err ≠ errTooLarge :=
  unsupported_type_error_priority initSys
    ⟨"a.txt", "text/plain", 10 * 1024 * 1024 + 1⟩ 0 (by decide) (by decide)

/-- The explicit state produced by a successful upload, used to
characterize upload_image on valid input. -/
theorem upload_image_success (s : Sys) (req : UploadRequest) (ownerId : Nat)
    (hmem : req.content_type ∈ ALLOWED_TYPES)
    (hsize : req.size ≤ MAX_FILE_SIZE_MB * 1024 * 1024)
    (hsw : strStartsWith req.content_type "image/" = true) :
    upload_image s req ownerId =
      (⟨⟨⟨s.nextId, generate_filename s.nextId, req.content_type, req.size,
            UPLOAD_DIR ++ "/" ++ generate_filename s.nextId, ownerId⟩ ::
            s.db.images,
          ⟨s.nextId + 1, s.nextId, 500, 500, none, "pending"⟩ ::
            s.db.thumbnails⟩,
        (UPLOAD_DIR ++ "/" ++ generate_filename s.nextId) :: s.files,
        s.tasks ++
          [⟨s.nextId, UPLOAD_DIR ++ "/" ++ generate_filename s.nextId,
            s.nextId + 1, 500, 500⟩],
        s.nextId + 2⟩,
       Except.ok ⟨s.nextId, s.nextId + 1, "pending"⟩) := by
  have hval : validate_image req.content_type req.size = none := by
    unfold validate_image
    rw [if_pos hmem, if_neg (by omega)]
  unfold upload_image
  rw [if_neg (not_not_intro hsw), hval]

/-- Every allowed content type starts with the image/ prefix. -/
theorem allowed_types_start_with_image (c : String)
    (hmem : c ∈ ALLOWED_TYPES) : strStartsWith c "image/" = true := by
  simp only [ALLOWED_TYPES, List.mem_cons, List.not_mem_nil, or_false]
    at hmem
  rcases hmem with h | h | h | h | h | h | h | h <;> rw [h] <;> decide

/-- **C9.** Immediate pending response: an upload that passes
validation returns the created image id, the created thumbnail job id
and the literal status pending; the created records exist with those
ids, and the returned value is the same whatever the outcome of the
later generation run. -/
theorem upload_returns_pending_immediately (s : Sys) (req : UploadRequest)
    (ownerId : Nat) (hmem : req.content_type ∈ ALLOWED_TYPES)
    (hsize : req.size ≤ MAX_FILE_SIZE_MB * 1024 * 1024) :
    (upload_image s req ownerId).2 =
      Except.ok ⟨s.nextId, s.nextId + 1, "pending"⟩ ∧
    findImage (upload_image s req ownerId).1.db s.nextId =
      some ⟨s.nextId, generate_filename s.nextId, req.content_type, req.size,
        UPLOAD_DIR ++ "/" ++ generate_filename s.nextId, ownerId⟩ ∧
    findThumbnail (upload_image s req ownerId).1.db (s.nextId + 1) =
      some ⟨s.nextId + 1, s.nextId, 500, 500, none, "pending"⟩ ∧
    ∀ src, (uploadThenGenerate s req ownerId src).2 =
      Except.ok ⟨s.nextId, s.nextId + 1, "pending"⟩ := by
  have hr := upload_image_success s req ownerId hmem hsize
    (allowed_types_start_with_image req.content_type hmem)
  refine ⟨?_, ?_, ?_, ?_⟩
  · rw [hr]
  · rw [hr]
    exact findI_cons_pos _ rfl
  · rw [hr]
    exact findT_cons_pos _ rfl
  · intro src
    unfold uploadThenGenerate
    rw [hr]

/-- Witness for C9 at a small PNG upload into the empty state. -/
theorem upload_returns_pending_immediately_witness :
    (upload_image initSys reqPng 0).2 = Except.ok ⟨0, 0 + 1, "pending"⟩ ∧
    findImage (upload_image initSys reqPng 0).1.db 0 =
      some ⟨0, generate_filename 0, reqPng.content_type, reqPng.size,
        UPLOAD_DIR ++ "/" ++ generate_filename 0, 0⟩ ∧
    findThumbnail (upload_image initSys reqPng 0).1.db (0 + 1) =
      some ⟨0 + 1, 0, 500, 500, none, "pending"⟩ ∧
    ∀ src, (uploadThenGenerate initSys reqPng 0 src).2 =
      Except.ok ⟨0, 0 + 1, "pending"⟩ :=
  upload_returns_pending_immediately initSys reqPng 0 (by decide) (by decide)

/-! ### Claims about the worker -/

/-- **C6.** Worker failure absorption: when any step of the worker
raises (missing file, decode error, write error), the worker — a total
function in this embedding, so nothing propagates to any caller —
sets the existing job row to status failed, changing none of its other
fields, touches no other row, writes no file and schedules nothing;
the failure is observable only through the persisted status. -/
theorem worker_failure_absorbed (s : Sys)
    (image_id thumbnail_id width height : Nat) (err : GenError)
    (t : ThumbnailRec) (hex : findThumbnail s.db thumbnail_id = some t) :
    (create_thumbnail_background s image_id thumbnail_id width height
        (Except.error err)).files = s.files ∧
    (create_thumbnail_background s image_id thumbnail_id width height
        (Except.error err)).tasks = s.tasks ∧
    findThumbnail (create_thumbnail_background s image_id thumbnail_id width
        height (Except.error err)).db thumbnail_id =
      some ⟨t.id, t.image_id, t.width, t.height, t.path, "failed"⟩ ∧
    ∀ tid2, tid2 ≠ thumbnail_id →
      findThumbnail (create_thumbnail_background s image_id thumbnail_id
          width height (Except.error err)).db tid2 =
        findThumbnail s.db tid2 := by
  have hdb : (create_thumbnail_background s image_id thumbnail_id width
      height (Except.error err)).db =
      updateThumbnail s.db thumbnail_id
        (fun u => { u with status := "failed" }) := by
    unfold create_thumbnail_background
    dsimp only
    rw [hex]
  refine ⟨?_, ?_, ?_, ?_⟩
  · unfold create_thumbnail_background
    dsimp only
    rw [hex]
  · unfold create_thumbnail_background
    dsimp only
    rw [hex]
  · rw [hdb, findThumbnail_update_self s.db thumbnail_id
        (fun u => { u with status := "failed" }) (fun u => rfl), hex]
    rfl
  · intro tid2 hne
    rw [hdb]
    exact findThumbnail_update_other _ _ _ hne _ (fun u => rfl)

/-- Witness for C6: a decode failure on the freshly created job. -/
theorem worker_failure_absorbed_witness :
    (create_thumbnail_background sysAfterUpload 0 1 500 500
        (Except.error GenError.decodeError)).files = sysAfterUpload.files ∧
    (create_thumbnail_background sysAfterUpload 0 1 500 500
        (Except.error GenError.decodeError)).tasks = sysAfterUpload.tasks ∧
    findThumbnail (create_thumbnail_background sysAfterUpload 0 1 500 500
        (Except.error GenError.decodeError)).db 1 =
      some ⟨thumbPending.id, thumbPending.image_id, thumbPending.width,
        thumbPending.height, thumbPending.path, "failed"⟩ ∧
    ∀ tid2, tid2 ≠ 1 →
      findThumbnail (create_thumbnail_background sysAfterUpload 0 1 500 500
          (Except.error GenError.decodeError)).db tid2 =
        findThumbnail sysAfterUpload.db tid2 :=
  worker_failure_absorbed sysAfterUpload 0 1 500 500 GenError.decodeError
    thumbPending rfl

/-- **C7.** Existence-tolerant status updates: when the job id no
longer resolves, both the mark-ready and the mark-failed path of the
worker leave the database unchanged (and, being total functions, raise
nothing); when the job exists, the mark-ready path sets status, output
path and both actual dimensions together in the single commit of one
row update, leaving other rows unchanged. -/
theorem mark_updates_existence_tolerant (s : Sys)
    (image_id thumbnail_id width height : Nat) :
    (findThumbnail s.db thumbnail_id = none →
      ∀ gen, (create_thumbnail_background s image_id thumbnail_id width
        height gen).db = s.db) ∧
    (∀ t out, findThumbnail s.db thumbnail_id = some t →
      findThumbnail (create_thumbnail_background s image_id thumbnail_id
          width height (Except.ok out)).db thumbnail_id =
        some ⟨t.id, t.image_id, out.width, out.height,
          some (THUMBNAIL_DIR ++ "/" ++ thumbFilename image_id width height),
          "ready"⟩ ∧
      ∀ tid2, tid2 ≠ thumbnail_id →
        findThumbnail (create_thumbnail_background s image_id thumbnail_id
            width height (Except.ok out)).db tid2 =
          findThumbnail s.db tid2) := by
  constructor
  · intro hnone gen
    unfold create_thumbnail_background
    dsimp only
    cases gen with
    | ok out =>
      rw [hnone]
    | error e0 =>
      rw [hnone]
  · intro t out hex
    have hdb : (create_thumbnail_background s image_id thumbnail_id width
        height (Except.ok out)).db =
        updateThumbnail s.db thumbnail_id (fun u =>
          { u with status := "ready",
                   path := some (THUMBNAIL_DIR ++ "/" ++
                     thumbFilename image_id width height),
                   width := out.width, height := out.height }) := by
      unfold create_thumbnail_background
      dsimp only
      rw [hex]
    constructor
    · rw [hdb, findThumbnail_update_self s.db thumbnail_id
          (fun u =>
            { u with
              status := "ready"
              path := some (THUMBNAIL_DIR ++ "/" ++
                thumbFilename image_id width height)
              width := out.width
              height := out.height })
          (fun u => rfl), hex]
      rfl
    · intro tid2 hne
      rw [hdb]
      exact findThumbnail_update_other _ _ _ hne _ (fun u => rfl)

/-- Witness for C7: the missing-job no-op on the empty database and
the ready update on the freshly created job. -/
theorem mark_updates_existence_tolerant_witness :
    (create_thumbnail_background initSys 0 1 500 500
        (Except.ok ⟨PILMode.RGB, 500, 250⟩)).db = initSys.db ∧
    findThumbnail (create_thumbnail_background sysAfterUpload 0 1 500 500
        (Except.ok ⟨PILMode.RGB, 500, 250⟩)).db 1 =
      some ⟨thumbPending.id, thumbPending.image_id, 500, 250,
        some (THUMBNAIL_DIR ++ "/" ++ thumbFilename 0 500 500), "ready"⟩ :=
  ⟨(mark_updates_existence_tolerant initSys 0 1 500 500).1 rfl
      (Except.ok ⟨PILMode.RGB, 500, 250⟩),
   ((mark_updates_existence_tolerant sysAfterUpload 0 1 500 500).2
      thumbPending ⟨PILMode.RGB, 500, 250⟩ rfl).1⟩

/-! ### Status transitions under one event -/

/-- An id-preserving conditional update cannot make an absent id
appear. -/
theorem find?_map_update_none (l : List ThumbnailRec) (tid X : Nat)
    (g : ThumbnailRec → ThumbnailRec)
    (h : l.find? (fun u : ThumbnailRec => u.id == tid) = none)
    (t2 : ThumbnailRec)
    (h2 : (l.map (fun t => if t.id == X then g t else t)).find?
      (fun u : ThumbnailRec => u.id == tid) = some t2)
    (hg : ∀ t, (g t).id = t.id) : False := by
  have hmem2 := List.mem_of_find?_eq_some h2
  obtain ⟨t, htmem, hteq⟩ := List.mem_map.mp hmem2
  have hid2 : t2.id = tid := by simpa using List.find?_some h2
  have hnone := List.find?_eq_none.mp h t htmem
  apply hnone
  have hids : t.id = t2.id := by
    rw [← hteq]
    by_cases hcase : (t.id == X) = true
    · rw [if_pos hcase, hg]
    · rw [if_neg hcase]
  simp [hids, hid2]

/-- Lookup of a non-updated id through an id-preserving conditional
update resolves to the original row. -/
theorem find?_map_update_other_eq (l : List ThumbnailRec) (tid X : Nat)
    (hne : tid ≠ X) (g : ThumbnailRec → ThumbnailRec)
    (t2 : ThumbnailRec)
    (h2 : (l.map (fun t => if t.id == X then g t else t)).find?
      (fun u : ThumbnailRec => u.id == tid) = some t2)
    (hg : ∀ t, (g t).id = t.id) :
    l.find? (fun u : ThumbnailRec => u.id == tid) = some t2 := by
  rw [find?_update_other l X tid hne g hg] at h2
  exact h2

/-- Lookup of the updated id through an id-preserving conditional
update resolves to the updated original row. -/
theorem find?_map_update_self_eq (l : List ThumbnailRec) (X : Nat)
    (g : ThumbnailRec → ThumbnailRec) (t2 : ThumbnailRec)
    (h2 : (l.map (fun t => if t.id == X then g t else t)).find?
      (fun u : ThumbnailRec => u.id == X) = some t2)
    (hg : ∀ t, (g t).id = t.id) :
    ∃ t1, l.find? (fun u : ThumbnailRec => u.id == X) = some t1 ∧
      t2 = g t1 := by
  rw [find?_update_self l X g hg] at h2
  obtain ⟨t1, ht1, ht2⟩ := Option.map_eq_some'.mp h2
  exact ⟨t1, ht1, ht2.symm⟩

/-- A job that appears after one event was created pending: whatever
the event, a previously absent job id can only surface with status
pending. -/
theorem statusOf_applyEvent_fresh (s : Sys) (hs : SysInvariant s) (e : Event)
    (tid : Nat) (h0 : statusOf s tid = none) (st : String)
    (h1 : statusOf (applyEvent s e) tid = some st) : st = "pending" := by
  have hfind0 : findThumbnail s.db tid = none := Option.map_eq_none'.mp h0
  cases e with
  | query a b =>
    exact Option.noConfusion (h0.symm.trans (h1 : statusOf s tid = some st))
  | upload req owner =>
    have h1' : statusOf (upload_image s req owner).1 tid = some st := h1
    unfold upload_image at h1'
    split_ifs at h1' with hsw
    · split at h1'
      · exact Option.noConfusion
          (h0.symm.trans (h1' : statusOf s tid = some st))
      · have h1f : (List.find? (fun u : ThumbnailRec => u.id == tid)
            ((⟨s.nextId + 1, s.nextId, 500, 500, none, "pending"⟩ :
              ThumbnailRec) :: s.db.thumbnails)).map
            (fun t => t.status) = some st := h1'
        have hfind0f : List.find? (fun u : ThumbnailRec => u.id == tid)
            s.db.thumbnails = none := hfind0
        by_cases htid :
            (⟨s.nextId + 1, s.nextId, 500, 500, none, "pending"⟩ :
              ThumbnailRec).id = tid
        · rw [findT_cons_pos _ htid] at h1f
          simpa using h1f.symm
        · rw [findT_cons_neg _ htid, hfind0f] at h1f
          exact Option.noConfusion h1f
    · exact Option.noConfusion (h0.symm.trans (h1' : statusOf s tid = some st))
  | deleteImage iid uid =>
    have h1' : statusOf (delete_image s iid uid) tid = some st := h1
    unfold delete_image at h1'
    split at h1'
    · exact Option.noConfusion (h0.symm.trans h1')
    · split_ifs at h1' with hown
      · exact Option.noConfusion
          (h0.symm.trans (h1' : statusOf s tid = some st))
      · obtain ⟨t, hfindt, hstt⟩ := Option.map_eq_some'.mp h1'
        have horig := find?_filter_eq s.db.thumbnails tid hs.2.2.1 _ t hfindt
        have hfind0f : List.find? (fun u : ThumbnailRec => u.id == tid)
            s.db.thumbnails = none := hfind0
        exact Option.noConfusion (hfind0f.symm.trans horig)
  | runTask src =>
    have h1' : statusOf
      (match s.tasks with
       | [] => s
       | task :: rest =>
         create_thumbnail_background { s with tasks := rest }
           task.image_id task.thumbnail_id task.width task.height
           (generate_thumbnail src task.width task.height)) tid
        = some st := h1
    split at h1'
    · exact Option.noConfusion (h0.symm.trans h1')
    · rename_i task rest htasks
      unfold create_thumbnail_background at h1'
      dsimp only at h1'
      split at h1'
      · rename_i out hgen
        split at h1'
        · obtain ⟨t2, hfind2, hst2⟩ := Option.map_eq_some'.mp h1'
          exact (find?_map_update_none s.db.thumbnails tid task.thumbnail_id
            _ hfind0 t2 hfind2 (fun u => rfl)).elim
        · exact Option.noConfusion
            (h0.symm.trans (h1' : statusOf s tid = some st))
      · rename_i e0 hgen
        split at h1'
        · obtain ⟨t2, hfind2, hst2⟩ := Option.map_eq_some'.mp h1'
          exact (find?_map_update_none s.db.thumbnails tid task.thumbnail_id
            _ hfind0 t2 hfind2 (fun u => rfl)).elim
        · exact Option.noConfusion
            (h0.symm.trans (h1' : statusOf s tid = some st))

/-- One event moves a job status along the one-way state machine:
either the status is unchanged, or a pending job becomes ready or
failed. -/
theorem statusOf_applyEvent_step (s : Sys) (hs : SysInvariant s) (e : Event)
    (tid : Nat) (st st' : String) (h0 : statusOf s tid = some st)
    (h1 : statusOf (applyEvent s e) tid = some st') :
    st' = st ∨ (st = "pending" ∧ (st' = "ready" ∨ st' = "failed")) := by
  obtain ⟨t0, hfind0, hst0⟩ := Option.map_eq_some'.mp h0
  have ht0mem := List.mem_of_find?_eq_some hfind0
  have ht0id : t0.id = tid := by simpa using List.find?_some hfind0
  cases e with
  | query a b =>
    exact Or.inl (Option.some.inj
      (h0.symm.trans (h1 : statusOf s tid = some st'))).symm
  | upload req owner =>
    have h1' : statusOf (upload_image s req owner).1 tid = some st' := h1
    unfold upload_image at h1'
    split_ifs at h1' with hsw
    · split at h1'
      · exact Or.inl (Option.some.inj
          (h0.symm.trans (h1' : statusOf s tid = some st'))).symm
      · have h1f : (List.find? (fun u : ThumbnailRec => u.id == tid)
            ((⟨s.nextId + 1, s.nextId, 500, 500, none, "pending"⟩ :
              ThumbnailRec) :: s.db.thumbnails)).map
            (fun t => t.status) = some st' := h1'
        have hlt := hs.2.1 t0 ht0mem
        have hne : ¬ (⟨s.nextId + 1, s.nextId, 500, 500, none, "pending"⟩ :
            ThumbnailRec).id = tid := by
          show ¬ s.nextId + 1 = tid
          rw [← ht0id]
          omega
        have hfind0f : List.find? (fun u : ThumbnailRec => u.id == tid)
            s.db.thumbnails = some t0 := hfind0
        rw [findT_cons_neg _ hne, hfind0f] at h1f
        simp only [Option.map_some', Option.some.injEq] at h1f
        exact Or.inl (h1f.symm.trans hst0)
    · exact Or.inl (Option.some.inj
        (h0.symm.trans (h1' : statusOf s tid = some st'))).symm
  | deleteImage iid uid =>
    have h1' : statusOf (delete_image s iid uid) tid = some st' := h1
    unfold delete_image at h1'
    split at h1'
    · exact Or.inl (Option.some.inj (h0.symm.trans h1')).symm
    · split_ifs at h1' with hown
      · exact Or.inl (Option.some.inj
          (h0.symm.trans (h1' : statusOf s tid = some st'))).symm
      · obtain ⟨t2, hfind2, hst2⟩ := Option.map_eq_some'.mp h1'
        have horig := find?_filter_eq s.db.thumbnails tid hs.2.2.1 _ t2 hfind2
        have hfind0f : List.find? (fun u : ThumbnailRec => u.id == tid)
            s.db.thumbnails = some t0 := hfind0
        have ht20 : t0 = t2 := Option.some.inj (hfind0f.symm.trans horig)
        have hstat : t2.status = t0.status := by rw [← ht20]
        exact Or.inl (hst2.symm.trans (hstat.trans hst0))
  | runTask src =>
    have h1' : statusOf
      (match s.tasks with
       | [] => s
       | task :: rest =>
         create_thumbnail_background { s with tasks := rest }
           task.image_id task.thumbnail_id task.width task.height
           (generate_thumbnail src task.width task.height)) tid
        = some st' := h1
    split at h1'
    · exact Or.inl (Option.some.inj (h0.symm.trans h1')).symm
    · rename_i task rest htasks
      have htaskmem : task ∈ s.tasks := by
        rw [htasks]
        exact List.mem_cons_self task rest
      unfold create_thumbnail_background at h1'
      dsimp only at h1'
      split at h1'
      · rename_i out hgen
        split at h1'
        · obtain ⟨t2, hfind2, hst2⟩ := Option.map_eq_some'.mp h1'
          by_cases htid : tid = task.thumbnail_id
          · subst htid
            obtain ⟨t1, hfind1o, ht2g⟩ := find?_map_update_self_eq
              s.db.thumbnails task.thumbnail_id _ t2 hfind2 (fun u => rfl)
            have hpend : t0.status = "pending" :=
              hs.2.2.2.2.2 task htaskmem t0 ht0mem ht0id
            have hready : st' = "ready" := by rw [← hst2, ht2g]
            exact Or.inr ⟨hst0.symm.trans hpend, Or.inl hready⟩
          · have horig := find?_map_update_other_eq s.db.thumbnails tid
              task.thumbnail_id htid _ t2 hfind2 (fun u => rfl)
            have hfind0f : List.find? (fun u : ThumbnailRec => u.id == tid)
                s.db.thumbnails = some t0 := hfind0
            have ht20 : t0 = t2 := Option.some.inj (hfind0f.symm.trans horig)
            have hstat : t2.status = t0.status := by rw [← ht20]
            exact Or.inl (hst2.symm.trans (hstat.trans hst0))
        · exact Or.inl (Option.some.inj
            (h0.symm.trans (h1' : statusOf s tid = some st'))).symm
      · rename_i e0 hgen
        split at h1'
        · obtain ⟨t2, hfind2, hst2⟩ := Option.map_eq_some'.mp h1'
          by_cases htid : tid = task.thumbnail_id
          · subst htid
            obtain ⟨t1, hfind1o, ht2g⟩ := find?_map_update_self_eq
              s.db.thumbnails task.thumbnail_id _ t2 hfind2 (fun u => rfl)
            have hpend : t0.status = "pending" :=
              hs.2.2.2.2.2 task htaskmem t0 ht0mem ht0id
            have hfailed : st' = "failed" := by rw [← hst2, ht2g]
            exact Or.inr ⟨hst0.symm.trans hpend, Or.inr hfailed⟩
          · have horig := find?_map_update_other_eq s.db.thumbnails tid
              task.thumbnail_id htid _ t2 hfind2 (fun u => rfl)
            have hfind0f : List.find? (fun u : ThumbnailRec => u.id == tid)
                s.db.thumbnails = some t0 := hfind0
            have ht20 : t0 = t2 := Option.some.inj (hfind0f.symm.trans horig)
            have hstat : t2.status = t0.status := by rw [← ht20]
            exact Or.inl (hst2.symm.trans (hstat.trans hst0))
        · exact Or.inl (Option.some.inj
            (h0.symm.trans (h1' : statusOf s tid = some st'))).symm

/-! ### Claims about the job lifecycle -/

/-- **C1 (amended).** In every reachable state, a job row has a
populated output path exactly when its status is ready; its width and
height columns are non-nullable and always populated: while the job is
not ready (pending or failed) they still hold the requested 500 by 500
target box, and they are overwritten with the actual output dimensions
only on the ready transition; the path of a non-ready job is null. -/
theorem thumbnail_fields_by_status (es : List Event) (tid : Nat)
    (t : ThumbnailRec) (h : findThumbnail (run es).db tid = some t) :
    (t.path ≠ none ↔ t.status = "ready") ∧
    (t.status ≠ "ready" → t.width = 500 ∧ t.height = 500 ∧ t.path = none) := by
  have hinv := sysInvariant_run es
  have hmem : t ∈ (run es).db.thumbnails := List.mem_of_find?_eq_some h
  have hti := hinv.1 t hmem
  exact ⟨hti.2.1, hti.2.2⟩

/-- Witness for C1 at the ready job produced by upload and a
successful generation run. -/
theorem thumbnail_fields_by_status_witness :
    ((⟨1, 0, 500, 250, some "uploads/thumbnails/0_thumb_500x500.jpg",
        "ready"⟩ : ThumbnailRec).path ≠ none ↔
      (⟨1, 0, 500, 250, some "uploads/thumbnails/0_thumb_500x500.jpg",
        "ready"⟩ : ThumbnailRec).status = "ready") ∧
    ((⟨1, 0, 500, 250, some "uploads/thumbnails/0_thumb_500x500.jpg",
        "ready"⟩ : ThumbnailRec).status ≠ "ready" →
      (⟨1, 0, 500, 250, some "uploads/thumbnails/0_thumb_500x500.jpg",
        "ready"⟩ : ThumbnailRec).width = 500 ∧
      (⟨1, 0, 500, 250, some "uploads/thumbnails/0_thumb_500x500.jpg",
        "ready"⟩ : ThumbnailRec).height = 500 ∧
      (⟨1, 0, 500, 250, some "uploads/thumbnails/0_thumb_500x500.jpg",
        "ready"⟩ : ThumbnailRec).path = none) :=
  thumbnail_fields_by_status
    [Event.upload reqPng 0, Event.runTask (some imgWide)] 1 _ rfl

/-- Counterexample to C1 as stated: immediately after an upload the
job is pending yet its width and height are populated with the
requested 500 by 500 box (they are non-nullable columns), and the
status query reports those numbers, not null; after a failed run the
job is failed and still reports width 500 and height 500. Only the
path behaves as the claim says. -/
theorem thumbnail_fields_by_status_counterexample :
    findThumbnail (run [Event.upload reqPng 0]).db 1 =
      some ⟨1, 0, 500, 500, none, "pending"⟩ ∧
    get_thumbnail_status (run [Event.upload reqPng 0]) 1 0 =
      Except.ok ⟨1, 0, "pending", 500, 500, none⟩ ∧
    findThumbnail (run [Event.upload reqPng 0, Event.runTask none]).db 1 =
      some ⟨1, 0, 500, 500, none, "failed"⟩ :=
  ⟨rfl, rfl, rfl⟩

/-- **C2.** Status state machine: in every execution, a job status is
always one of pending, ready, failed; a job surfaces only with status
pending; and one further event either leaves a status unchanged or
moves it from pending to ready or from pending to failed — ready and
failed are terminal. -/
theorem thumbnail_status_state_machine (es : List Event) (e : Event)
    (tid : Nat) :
    (∀ st, statusOf (run es) tid = some st →
      st = "pending" ∨ st = "ready" ∨ st = "failed") ∧
    (statusOf (run es) tid = none →
      ∀ st, statusOf (run (es ++ [e])) tid = some st → st = "pending") ∧
    (∀ st st', statusOf (run es) tid = some st →
      statusOf (run (es ++ [e])) tid = some st' →
      st' = st ∨ (st = "pending" ∧ (st' = "ready" ∨ st' = "failed"))) := by
  have hinv := sysInvariant_run es
  have happ : run (es ++ [e]) = applyEvent (run es) e := by
    simp [run, List.foldl_append]
  refine ⟨?_, ?_, ?_⟩
  · intro st h
    obtain ⟨t, hfind, hstt⟩ := Option.map_eq_some'.mp h
    have hmem := List.mem_of_find?_eq_some hfind
    exact hstt ▸ (hinv.1 t hmem).1
  · intro h0 st h1
    rw [happ] at h1
    exact statusOf_applyEvent_fresh (run es) hinv e tid h0 st h1
  · intro st st' h0 h1
    rw [happ] at h1
    exact statusOf_applyEvent_step (run es) hinv e tid st st' h0 h1

/-- Witness for C2: the created job is pending, surfaces as pending,
and moves to ready on a successful run. -/
theorem thumbnail_status_state_machine_witness :
    ("pending" = "pending" ∨ "pending" = "ready" ∨ "pending" = "failed") ∧
    ("pending" = "pending") ∧
    ("ready" = "pending" ∨
      ("pending" = "pending" ∧ ("ready" = "ready" ∨ "ready" = "failed"))) :=
  ⟨(thumbnail_status_state_machine [Event.upload reqPng 0]
      (Event.runTask (some imgWide)) 1).1 "pending" rfl,
   (thumbnail_status_state_machine [] (Event.upload reqPng 0) 1).2.1
      rfl "pending" rfl,
   (thumbnail_status_state_machine [Event.upload reqPng 0]
      (Event.runTask (some imgWide)) 1).2.2 "pending" "ready" rfl rfl⟩

end ImageThumb
